import Mathlib

/-! Verification of the KDV scheduler model layer.

The repository contains two parallel implementations of the same model
object: `kdv_model.py` (Gurobi backend, embedded below in namespace `GB`)
and `mipmod.py` (python-mip / CBC backend, embedded in namespace `MIP`).
Numeric data is embedded over `ℚ`; a slot×person table becomes a function
`Fin S → Fin P → ℚ`.  A Python method that may either return normally or
raise is embedded as a function into `Except KDVError _`: `Except.ok v`
means "returns v", `Except.error e` means "raises e".  A method of the
source that performs no check and cannot raise is embedded as always
returning `Except.ok`.
-/

/-- Error taxonomy of the specification's §7 (the failure kinds an
evaluator call can surface).  `notConverged` stands for the failure of the
`assert self.converged()` guard. -/
inductive KDVError
  | notConverged
  | invalidPreferenceData
  deriving DecidableEq

/-- Comparison sense of a single solver constraint (`==`, `<=`, `>=`). -/
inductive Cmp
  | le
  | ge
  | eq
  deriving DecidableEq

/-- One constraint handed to the solver: a deterministic name, a linear
expression in the assignment variables (embedded as its evaluation
function), a comparison sense and a right-hand side. -/
structure LinConstr (S P : ℕ) where
  name : String
  lhs : (Fin S → Fin P → ℚ) → ℚ
  cmp : Cmp
  rhs : ℚ

/-- An assignment matrix `x` satisfies a constraint when the constraint's
linear expression at `x` compares to the right-hand side as demanded. -/
def LinConstr.sat {S P : ℕ} (c : LinConstr S P) (x : Fin S → Fin P → ℚ) : Prop :=
  match c.cmp with
  | Cmp.le => c.lhs x ≤ c.rhs
  | Cmp.ge => c.rhs ≤ c.lhs x
  | Cmp.eq => c.lhs x = c.rhs

instance {S P : ℕ} (c : LinConstr S P) (x : Fin S → Fin P → ℚ) :
    Decidable (c.sat x) := by
  rcases c with ⟨n, l, cmp, r⟩
  cases cmp
  · exact inferInstanceAs (Decidable (l x ≤ r))
  · exact inferInstanceAs (Decidable (r ≤ l x))
  · exact inferInstanceAs (Decidable (l x = r))

/-- An assignment matrix satisfies a constraint set (a feasible solution)
when it satisfies each constraint in the list. -/
def satAll {S P : ℕ} (cs : List (LinConstr S P)) (x : Fin S → Fin P → ℚ) : Prop :=
  ∀ c ∈ cs, c.sat x

instance {S P : ℕ} (cs : List (LinConstr S P)) (x : Fin S → Fin P → ℚ) :
    Decidable (satAll cs x) :=
  List.decidableBAll _ cs

/-- The validated tunable parameters (the YAML keys read by the model). -/
structure Config where
  slots_per_person_max : ℚ
  persons_per_slot_min : ℚ
  persons_per_slot_max : ℚ
  experience_months : ℚ
  min_experienced_persons : ℚ

/-- Embeds `prefs.sum(axis=0)`: the sum of person `p`'s preference column. -/
def colSum {S P : ℕ} (prefs : Fin S → Fin P → ℚ) (p : Fin P) : ℚ :=
  ∑ s, prefs s p

/-- Embeds `prefs_normed.max(0)`: the maximum of person `p`'s column (the pandas
column-wise maximum; only evaluated on tables with at least one slot). -/
def colMax {S P : ℕ} (pn : Fin S → Fin P → ℚ) (p : Fin P) : ℚ :=
  if h : S = 0 then 0
  else
    Finset.univ.sup' (Finset.univ_nonempty_iff.mpr ⟨⟨0, Nat.pos_of_ne_zero h⟩⟩)
      fun s => pn s p

/-- Embeds `load_experiences` (identical in both source files):
`int(exp_dict[n] > self.config["experience_months"])` for each person. -/
def exp_indicator {P : ℕ} (months : Fin P → ℚ) (threshold : ℚ) (p : Fin P) : ℕ :=
  if months p > threshold then 1 else 0

namespace GB

/-! Embedding of `kdv_model.py` (Gurobi backend).  Slot and person name
lists become functions `Fin S → String` / `Fin P → String`; the binary
decision variables `assignments` become the argument `x` of the constraint
and objective evaluation functions. -/

variable {S P : ℕ}

/-- Embeds `load_preferences` line 36:
`prefs_normed = prefs / prefs.sum(axis=0) * len(slot_names)`. -/
def prefs_normed (prefs : Fin S → Fin P → ℚ) (s : Fin S) (p : Fin P) : ℚ :=
  prefs s p / colSum prefs p * S

/-- Embeds `set_variables`: `var_names = [[f"{n} - {s}" ...]]`. -/
def var_names (sn : Fin S → String) (pm : Fin P → String) (s : Fin S) (p : Fin P) :
    String :=
  pm p ++ " - " ++ sn s

/-- Embeds `set_objective` lines 54–55: minimize
`quicksum(quicksum(discrepancy * discrepancy))` with
`discrepancy = assignments - prefs_np` — the elementwise squared
discrepancy summed over all cells. -/
def objective (pn : Fin S → Fin P → ℚ) (x : Fin S → Fin P → ℚ) : ℚ :=
  ∑ s, ∑ p, (x s p - pn s p) * (x s p - pn s p)

/-- Embeds `constr_no_unavailable_slots`: for each cell with normalized
preference 0, the constraint `assignments[idx] == 0` named
`unavail_{var_names[idx]}`. -/
def constr_no_unavailable_slots (sn : Fin S → String) (pm : Fin P → String)
    (pn : Fin S → Fin P → ℚ) : List (LinConstr S P) :=
  (List.finRange S).flatMap fun s =>
    (List.finRange P).filterMap fun p =>
      if pn s p = 0 then
        some { name := "unavail_" ++ var_names sn pm s p
               lhs := fun x => x s p
               cmp := Cmp.eq
               rhs := 0 }
      else none

/-- Embeds `constr_slots_per_person`: `slots_per_person[i] <= slots_per_person_max`
for each person, named `maxslots_{person}` (`slots_per_person` is
`assignments.sum(axis=0)`). -/
def constr_slots_per_person (pm : Fin P → String) (cfg : Config) :
    List (LinConstr S P) :=
  (List.finRange P).map fun p =>
    { name := "maxslots_" ++ pm p
      lhs := fun x => ∑ s, x s p
      cmp := Cmp.le
      rhs := cfg.slots_per_person_max }

/-- Embeds `constr_persons_per_slot`: for each slot the two constraints
`persons_per_slot[i] >= persons_per_slot_min` and
`persons_per_slot[i] <= persons_per_slot_max` (`persons_per_slot` is
`assignments.sum(axis=1)`). -/
def constr_persons_per_slot (sn : Fin S → String) (cfg : Config) :
    List (LinConstr S P) :=
  (List.finRange S).flatMap fun s =>
    [ { name := "minpersons_" ++ sn s
        lhs := fun x => ∑ p, x s p
        cmp := Cmp.ge
        rhs := cfg.persons_per_slot_min },
      { name := "maxpersons_" ++ sn s
        lhs := fun x => ∑ p, x s p
        cmp := Cmp.le
        rhs := cfg.persons_per_slot_max } ]

/-- Embeds `constr_experienced_persons`:
`experienced_per_slot[i] >= min_experienced_persons` for each slot
(`experienced_per_slot` is `assignments @ exp_indicator`). -/
def constr_experienced_persons (sn : Fin S → String) (cfg : Config)
    (ind : Fin P → ℕ) : List (LinConstr S P) :=
  (List.finRange S).map fun s =>
    { name := "expperson_" ++ sn s
      lhs := fun x => ∑ p, x s p * (ind p : ℚ)
      cmp := Cmp.ge
      rhs := cfg.min_experienced_persons }

/-- Embeds `set_constraints`: the four constraint families added in source
order. -/
def set_constraints (sn : Fin S → String) (pm : Fin P → String)
    (pn : Fin S → Fin P → ℚ) (cfg : Config) (ind : Fin P → ℕ) :
    List (LinConstr S P) :=
  constr_no_unavailable_slots sn pm pn ++ constr_slots_per_person pm cfg ++
    constr_persons_per_slot sn cfg ++ constr_experienced_persons sn cfg ind

/-- The model object after `__init__`: normalized preferences, experience
indicator, objective and constraint set. -/
structure Model (S P : ℕ) where
  prefs_normed : Fin S → Fin P → ℚ
  exp_indicator : Fin P → ℕ
  objective : (Fin S → Fin P → ℚ) → ℚ
  constrs : List (LinConstr S P)

/-- Embeds `__init__`: load the data, then `set_variables` / `set_objective` /
`set_constraints`.  No step of the source performs validation or raises,
so the embedded constructor always returns `Except.ok`. -/
def init (sn : Fin S → String) (pm : Fin P → String) (prefs : Fin S → Fin P → ℚ)
    (cfg : Config) (months : Fin P → ℚ) : Except KDVError (Model S P) :=
  Except.ok
    { prefs_normed := prefs_normed prefs
      exp_indicator := exp_indicator months cfg.experience_months
      objective := objective (prefs_normed prefs)
      constrs := set_constraints sn pm (prefs_normed prefs) cfg
        (exp_indicator months cfg.experience_months) }

/-- Solver-facing state after `optimize`: `solcount` is the Gurobi
`model.solcount` attribute, `assignX` the solved values `assignments.X`. -/
structure State (S P : ℕ) where
  prefs_normed : Fin S → Fin P → ℚ
  solcount : ℕ
  assignX : Fin S → Fin P → ℚ

/-- Embeds `converged`: `self.model.solcount > 0`. -/
def converged (st : State S P) : Prop :=
  0 < st.solcount

instance (st : State S P) : Decidable (converged st) :=
  inferInstanceAs (Decidable (0 < st.solcount))

/-- Embeds `slot_schedule`: `assert self.converged()` then return the solved
assignment values; the failed assert is the `notConverged` failure. -/
def slot_schedule (st : State S P) : Except KDVError (Fin S → Fin P → ℚ) :=
  if converged st then Except.ok st.assignX else Except.error KDVError.notConverged

/-- The per-slot formula of `slot_desirability`:
`prefs_normed.sum(1) / len(person_names)`. -/
def desirability_of (pn : Fin S → Fin P → ℚ) (s : Fin S) : ℚ :=
  (∑ p, pn s p) / P

/-- Embeds `slot_desirability`: computed from the normalized preferences alone;
the source has no convergence or data guard, so it always returns. -/
def slot_desirability (st : State S P) : Except KDVError (Fin S → ℚ) :=
  Except.ok (desirability_of st.prefs_normed)

/-- The per-person formula of `person_flexibility`:
`1 / prefs_normed.max(0)`. -/
def flexibility_of (pn : Fin S → Fin P → ℚ) (p : Fin P) : ℚ :=
  1 / colMax pn p

/-- Embeds `person_flexibility`: computed from the normalized preferences alone;
the source has no guard of any kind, so it always returns. -/
def person_flexibility (st : State S P) : Except KDVError (Fin P → ℚ) :=
  Except.ok (flexibility_of st.prefs_normed)

end GB

/-- Embeds `mip.OptimizationStatus` values relevant to this model's lifecycle
(`NO_SOLUTION_FOUND` covers the not-yet-solved / truncated search cases). -/
inductive OptStatus
  | OPTIMAL
  | FEASIBLE
  | INFEASIBLE
  | NO_SOLUTION_FOUND
  | ERROR
  deriving DecidableEq

namespace MIP

/-! Embedding of `mipmod.py` (python-mip / CBC backend).  It differs from
`kdv_model.py` in the normalization (no rescaling by the slot count), the
variable-name separator, the objective (the squared discrepancy is not
expanded; the raw discrepancies are summed), the desirability rescaling
and the solver-status bookkeeping. -/

variable {S P : ℕ}

/-- Embeds `load_preferences` line 35:
`prefs_normed = prefs / prefs.sum(axis=0)` (the `* len(slot_names)`
rescaling is commented out in this variant). -/
def prefs_normed (prefs : Fin S → Fin P → ℚ) (s : Fin S) (p : Fin P) : ℚ :=
  prefs s p / colSum prefs p

/-- Embeds `set_variables`: `var_names = [[f"{n}_{s}" ...]]`. -/
def var_names (sn : Fin S → String) (pm : Fin P → String) (s : Fin S) (p : Fin P) :
    String :=
  pm p ++ "_" ++ sn s

/-- Embeds `set_objective` lines 53–54: minimize
`xsum(d.item() for d in np.nditer(discrepancy))` with
`discrepancy = assignments - prefs_np` — the raw (unsquared) discrepancies
summed over all cells. -/
def objective (pn : Fin S → Fin P → ℚ) (x : Fin S → Fin P → ℚ) : ℚ :=
  ∑ s, ∑ p, (x s p - pn s p)

/-- Embeds `constr_no_unavailable_slots`: same loop as the Gurobi variant, with
this variant's `var_names` in the constraint name. -/
def constr_no_unavailable_slots (sn : Fin S → String) (pm : Fin P → String)
    (pn : Fin S → Fin P → ℚ) : List (LinConstr S P) :=
  (List.finRange S).flatMap fun s =>
    (List.finRange P).filterMap fun p =>
      if pn s p = 0 then
        some { name := "unavail_" ++ var_names sn pm s p
               lhs := fun x => x s p
               cmp := Cmp.eq
               rhs := 0 }
      else none

/-- Embeds `constr_slots_per_person`: `slots_per_person[i] <= slots_per_person_max`
for each person, named `maxslots_{person}`. -/
def constr_slots_per_person (pm : Fin P → String) (cfg : Config) :
    List (LinConstr S P) :=
  (List.finRange P).map fun p =>
    { name := "maxslots_" ++ pm p
      lhs := fun x => ∑ s, x s p
      cmp := Cmp.le
      rhs := cfg.slots_per_person_max }

/-- Embeds `constr_persons_per_slot`: per slot, the minimum and maximum coverage
constraints. -/
def constr_persons_per_slot (sn : Fin S → String) (cfg : Config) :
    List (LinConstr S P) :=
  (List.finRange S).flatMap fun s =>
    [ { name := "minpersons_" ++ sn s
        lhs := fun x => ∑ p, x s p
        cmp := Cmp.ge
        rhs := cfg.persons_per_slot_min },
      { name := "maxpersons_" ++ sn s
        lhs := fun x => ∑ p, x s p
        cmp := Cmp.le
        rhs := cfg.persons_per_slot_max } ]

/-- Embeds `constr_experienced_persons`:
`experienced_per_slot[i] >= min_experienced_persons` per slot. -/
def constr_experienced_persons (sn : Fin S → String) (cfg : Config)
    (ind : Fin P → ℕ) : List (LinConstr S P) :=
  (List.finRange S).map fun s =>
    { name := "expperson_" ++ sn s
      lhs := fun x => ∑ p, x s p * (ind p : ℚ)
      cmp := Cmp.ge
      rhs := cfg.min_experienced_persons }

/-- Embeds `set_constraints`: the four constraint families added in source
order. -/
def set_constraints (sn : Fin S → String) (pm : Fin P → String)
    (pn : Fin S → Fin P → ℚ) (cfg : Config) (ind : Fin P → ℕ) :
    List (LinConstr S P) :=
  constr_no_unavailable_slots sn pm pn ++ constr_slots_per_person pm cfg ++
    constr_persons_per_slot sn cfg ++ constr_experienced_persons sn cfg ind

/-- The model object after `__init__`. -/
structure Model (S P : ℕ) where
  prefs_normed : Fin S → Fin P → ℚ
  exp_indicator : Fin P → ℕ
  objective : (Fin S → Fin P → ℚ) → ℚ
  constrs : List (LinConstr S P)

/-- Embeds `__init__`: load the data, then `set_variables` / `set_objective` /
`set_constraints`.  No step of the source performs validation or raises,
so the embedded constructor always returns `Except.ok`. -/
def init (sn : Fin S → String) (pm : Fin P → String) (prefs : Fin S → Fin P → ℚ)
    (cfg : Config) (months : Fin P → ℚ) : Except KDVError (Model S P) :=
  Except.ok
    { prefs_normed := prefs_normed prefs
      exp_indicator := exp_indicator months cfg.experience_months
      objective := objective (prefs_normed prefs)
      constrs := set_constraints sn pm (prefs_normed prefs) cfg
        (exp_indicator months cfg.experience_months) }

/-- Solver-facing state after `optimize`: `opt_status` is the stored
`mip.OptimizationStatus`, `assignX` the solved variable values. -/
structure State (S P : ℕ) where
  prefs_normed : Fin S → Fin P → ℚ
  opt_status : OptStatus
  assignX : Fin S → Fin P → ℚ

/-- Embeds `converged`:
`opt_status == OptimizationStatus.OPTIMAL or opt_status == OptimizationStatus.FEASIBLE`. -/
def converged (st : State S P) : Prop :=
  st.opt_status = OptStatus.OPTIMAL ∨ st.opt_status = OptStatus.FEASIBLE

instance (st : State S P) : Decidable (converged st) :=
  inferInstanceAs (Decidable (_ ∨ _))

/-- Embeds `slot_schedule`: `assert self.converged()` then return the solved
assignment values; the failed assert is the `notConverged` failure. -/
def slot_schedule (st : State S P) : Except KDVError (Fin S → Fin P → ℚ) :=
  if converged st then Except.ok st.assignX else Except.error KDVError.notConverged

/-- The per-slot formula of `slot_desirability`:
`prefs_normed.sum(axis=1) / len(person_names) * len(slot_names)`. -/
def desirability_of (pn : Fin S → Fin P → ℚ) (s : Fin S) : ℚ :=
  (∑ p, pn s p) / P * S

/-- Embeds `slot_desirability`: computed from the normalized preferences alone;
the source has no convergence or data guard, so it always returns. -/
def slot_desirability (st : State S P) : Except KDVError (Fin S → ℚ) :=
  Except.ok (desirability_of st.prefs_normed)

/-- The per-person formula of `person_flexibility`:
`1 / prefs_normed.max(axis=0)`. -/
def flexibility_of (pn : Fin S → Fin P → ℚ) (p : Fin P) : ℚ :=
  1 / colMax pn p

/-- Embeds `person_flexibility`: computed from the normalized preferences alone;
the source has no guard of any kind, so it always returns. -/
def person_flexibility (st : State S P) : Except KDVError (Fin P → ℚ) :=
  Except.ok (flexibility_of st.prefs_normed)

end MIP

/-! Concrete instances used to evaluate the definitions on small inputs. -/

/-- A one-slot name table. -/
def snA : Fin 1 → String := fun _ => "ma-o"

/-- A one-person name table. -/
def pmA : Fin 1 → String := fun _ => "anne"

/-- A two-slot name table. -/
def snB : Fin 2 → String := fun s => if s = 0 then "ma-o" else "di-o"

/-- A two-person name table. -/
def pmB : Fin 2 → String := fun p => if p = 0 then "anne" else "bo"

/-- A 1×1 raw preference table with the single cell 5. -/
def prefsC1 : Fin 1 → Fin 1 → ℚ := fun _ _ => 5

/-- The 1×1 normalized preference table with the single cell 1 (the
sum-to-1 normalization of `prefsC1`). -/
def pnC1 : Fin 1 → Fin 1 → ℚ := fun _ _ => 1

/-- The 1×1 binary assignment leaving the single cell unassigned. -/
def xC1 : Fin 1 → Fin 1 → ℚ := fun _ _ => 0

/-- A 2×2 raw preference table whose second person's column is all
zeros (no stated preference at all). -/
def prefsC2 : Fin 2 → Fin 2 → ℚ := ![![1, 0], ![2, 0]]

/-- A permissive configuration. -/
def cfgC2 : Config := ⟨2, 0, 2, 6, 0⟩

/-- An experience table marking both persons experienced. -/
def monthsC2 : Fin 2 → ℚ := fun _ => 12

/-- A 1×1 all-zero configuration. -/
def cfg0 : Config := ⟨0, 0, 0, 6, 0⟩

/-- The all-inexperienced indicator on one person. -/
def ind0 : Fin 1 → ℕ := fun _ => 0

/-- The 1×1 all-zero normalized preference table. -/
def pnZ : Fin 1 → Fin 1 → ℚ := fun _ _ => 0

/-- The 1×1 all-zero assignment. -/
def xZ : Fin 1 → Fin 1 → ℚ := fun _ _ => 0

/-- A configuration with all bounds equal to one. -/
def cfg1 : Config := ⟨1, 1, 1, 6, 1⟩

/-- The all-experienced indicator on one person. -/
def ind1 : Fin 1 → ℕ := fun _ => 1

/-- The 1×1 all-one normalized preference table. -/
def pnOne : Fin 1 → Fin 1 → ℚ := fun _ _ => 1

/-- The 1×1 all-one assignment. -/
def xOne : Fin 1 → Fin 1 → ℚ := fun _ _ => 1

/-- A 2×1 raw preference table with constant value 2. -/
def prefs3 : Fin 2 → Fin 1 → ℚ := fun _ _ => 2

/-- A CBC-variant state whose solver reported infeasibility. -/
def stM7 : MIP.State 1 1 := ⟨fun _ _ => 1, OptStatus.INFEASIBLE, fun _ _ => 0⟩

/-- A Gurobi-variant state with no solutions found (`solcount = 0`). -/
def stG7 : GB.State 1 1 := ⟨fun _ _ => 1, 0, fun _ _ => 0⟩

/-- A solved CBC-variant state whose normalized preference column has
maximum zero. -/
def stM8 : MIP.State 1 1 := ⟨fun _ _ => 0, OptStatus.OPTIMAL, fun _ _ => 0⟩

/-- A solved Gurobi-variant state whose normalized preference column has
maximum zero. -/
def stG8 : GB.State 1 1 := ⟨fun _ _ => 0, 1, fun _ _ => 0⟩

/-- A 2×2 raw preference table, constant 1 on the available cells, whose
cell (slot 1, person 1) is 0 (unavailable). -/
def prefsC9 : Fin 2 → Fin 2 → ℚ := ![![1, 1], ![1, 0]]

/-- A 1×1 raw preference table with every cell equal to 2. -/
def prefsC9u : Fin 1 → Fin 1 → ℚ := fun _ _ => 2

theorem sat_le_iff {S P : ℕ} (n : String) (l : (Fin S → Fin P → ℚ) → ℚ) (r : ℚ)
    (x : Fin S → Fin P → ℚ) :
    LinConstr.sat ⟨n, l, Cmp.le, r⟩ x ↔ l x ≤ r := Iff.rfl

theorem sat_ge_iff {S P : ℕ} (n : String) (l : (Fin S → Fin P → ℚ) → ℚ) (r : ℚ)
    (x : Fin S → Fin P → ℚ) :
    LinConstr.sat ⟨n, l, Cmp.ge, r⟩ x ↔ r ≤ l x := Iff.rfl

theorem sat_eq_iff {S P : ℕ} (n : String) (l : (Fin S → Fin P → ℚ) → ℚ) (r : ℚ)
    (x : Fin S → Fin P → ℚ) :
    LinConstr.sat ⟨n, l, Cmp.eq, r⟩ x ↔ l x = r := Iff.rfl

theorem satAll_append {S P : ℕ} (a b : List (LinConstr S P)) (x : Fin S → Fin P → ℚ) :
    satAll (a ++ b) x ↔ satAll a x ∧ satAll b x := by
  unfold satAll
  exact List.forall_mem_append

theorem satAll_map_finRange {S P n : ℕ} (f : Fin n → LinConstr S P)
    (x : Fin S → Fin P → ℚ) :
    satAll ((List.finRange n).map f) x ↔ ∀ i, (f i).sat x := by
  simp [satAll, List.forall_mem_map, List.mem_finRange]

theorem satAll_flatMap_finRange {S P n : ℕ} (f : Fin n → List (LinConstr S P))
    (x : Fin S → Fin P → ℚ) :
    satAll ((List.finRange n).flatMap f) x ↔ ∀ i, satAll (f i) x := by
  constructor
  · intro h i c hc
    exact h c (List.mem_flatMap.mpr ⟨i, List.mem_finRange i, hc⟩)
  · intro h c hc
    obtain ⟨i, _, hci⟩ := List.mem_flatMap.mp hc
    exact h i c hci

theorem satAll_filterMap_finRange {S P n : ℕ} (f : Fin n → Option (LinConstr S P))
    (x : Fin S → Fin P → ℚ) :
    satAll ((List.finRange n).filterMap f) x ↔ ∀ i, ∀ c, f i = some c → c.sat x := by
  constructor
  · intro h i c hc
    exact h c (List.mem_filterMap.mpr ⟨i, List.mem_finRange i, hc⟩)
  · intro h c hc
    obtain ⟨i, _, hci⟩ := List.mem_filterMap.mp hc
    exact h i c hci

theorem satAll_pair {S P : ℕ} (c₁ c₂ : LinConstr S P) (x : Fin S → Fin P → ℚ) :
    satAll [c₁, c₂] x ↔ c₁.sat x ∧ c₂.sat x := by
  simp [satAll]


namespace GB

variable {S P : ℕ}

theorem satAll_unavail_iff_gb (sn : Fin S → String) (pm : Fin P → String)
    (pn : Fin S → Fin P → ℚ) (x : Fin S → Fin P → ℚ) :
    satAll (constr_no_unavailable_slots sn pm pn) x ↔
      ∀ s p, pn s p = 0 → x s p = 0 := by
  unfold constr_no_unavailable_slots
  rw [satAll_flatMap_finRange]
  refine forall_congr' fun s => ?_
  rw [satAll_filterMap_finRange]
  constructor
  · intro h p hz
    exact h p _ (by rw [if_pos hz])
  · intro h p c hc
    rw [Option.ite_none_right_eq_some] at hc
    obtain ⟨hz, hrec⟩ := hc
    cases Option.some.inj hrec
    exact h p hz

theorem satAll_maxslots_iff_gb (pm : Fin P → String) (cfg : Config)
    (x : Fin S → Fin P → ℚ) :
    satAll (constr_slots_per_person pm cfg (S := S)) x ↔
      ∀ p, ∑ s, x s p ≤ cfg.slots_per_person_max := by
  unfold constr_slots_per_person
  rw [satAll_map_finRange]
  exact Iff.rfl

theorem satAll_coverage_iff_gb (sn : Fin S → String) (cfg : Config)
    (x : Fin S → Fin P → ℚ) :
    satAll (constr_persons_per_slot sn cfg (P := P)) x ↔
      ∀ s, cfg.persons_per_slot_min ≤ ∑ p, x s p ∧
        ∑ p, x s p ≤ cfg.persons_per_slot_max := by
  unfold constr_persons_per_slot
  rw [satAll_flatMap_finRange]
  refine forall_congr' fun s => ?_
  rw [satAll_pair]
  exact Iff.rfl

theorem satAll_experienced_iff_gb (sn : Fin S → String) (cfg : Config)
    (ind : Fin P → ℕ) (x : Fin S → Fin P → ℚ) :
    satAll (constr_experienced_persons sn cfg ind) x ↔
      ∀ s, cfg.min_experienced_persons ≤ ∑ p, x s p * (ind p : ℚ) := by
  unfold constr_experienced_persons
  rw [satAll_map_finRange]
  exact Iff.rfl

/-- The feasible region of the Gurobi variant's constraint set, spelled
out: availability, person capacity, slot coverage and skill mix. -/
theorem satAll_set_constraints_iff_gb (sn : Fin S → String) (pm : Fin P → String)
    (pn : Fin S → Fin P → ℚ) (cfg : Config) (ind : Fin P → ℕ)
    (x : Fin S → Fin P → ℚ) :
    satAll (set_constraints sn pm pn cfg ind) x ↔
      (∀ s p, pn s p = 0 → x s p = 0) ∧
      (∀ p, ∑ s, x s p ≤ cfg.slots_per_person_max) ∧
      (∀ s, cfg.persons_per_slot_min ≤ ∑ p, x s p ∧
        ∑ p, x s p ≤ cfg.persons_per_slot_max) ∧
      (∀ s, cfg.min_experienced_persons ≤ ∑ p, x s p * (ind p : ℚ)) := by
  unfold set_constraints
  rw [satAll_append, satAll_append, satAll_append, satAll_unavail_iff_gb,
    satAll_maxslots_iff_gb, satAll_coverage_iff_gb, satAll_experienced_iff_gb]
  tauto

end GB

namespace MIP

variable {S P : ℕ}

theorem satAll_unavail_iff_mip (sn : Fin S → String) (pm : Fin P → String)
    (pn : Fin S → Fin P → ℚ) (x : Fin S → Fin P → ℚ) :
    satAll (constr_no_unavailable_slots sn pm pn) x ↔
      ∀ s p, pn s p = 0 → x s p = 0 := by
  unfold constr_no_unavailable_slots
  rw [satAll_flatMap_finRange]
  refine forall_congr' fun s => ?_
  rw [satAll_filterMap_finRange]
  constructor
  · intro h p hz
    exact h p _ (by rw [if_pos hz])
  · intro h p c hc
    rw [Option.ite_none_right_eq_some] at hc
    obtain ⟨hz, hrec⟩ := hc
    cases Option.some.inj hrec
    exact h p hz

theorem satAll_maxslots_iff_mip (pm : Fin P → String) (cfg : Config)
    (x : Fin S → Fin P → ℚ) :
    satAll (constr_slots_per_person pm cfg (S := S)) x ↔
      ∀ p, ∑ s, x s p ≤ cfg.slots_per_person_max := by
  unfold constr_slots_per_person
  rw [satAll_map_finRange]
  exact Iff.rfl

theorem satAll_coverage_iff_mip (sn : Fin S → String) (cfg : Config)
    (x : Fin S → Fin P → ℚ) :
    satAll (constr_persons_per_slot sn cfg (P := P)) x ↔
      ∀ s, cfg.persons_per_slot_min ≤ ∑ p, x s p ∧
        ∑ p, x s p ≤ cfg.persons_per_slot_max := by
  unfold constr_persons_per_slot
  rw [satAll_flatMap_finRange]
  refine forall_congr' fun s => ?_
  rw [satAll_pair]
  exact Iff.rfl

theorem satAll_experienced_iff_mip (sn : Fin S → String) (cfg : Config)
    (ind : Fin P → ℕ) (x : Fin S → Fin P → ℚ) :
    satAll (constr_experienced_persons sn cfg ind) x ↔
      ∀ s, cfg.min_experienced_persons ≤ ∑ p, x s p * (ind p : ℚ) := by
  unfold constr_experienced_persons
  rw [satAll_map_finRange]
  exact Iff.rfl

/-- The feasible region of the CBC variant's constraint set, spelled
out: availability, person capacity, slot coverage and skill mix. -/
theorem satAll_set_constraints_iff_mip (sn : Fin S → String) (pm : Fin P → String)
    (pn : Fin S → Fin P → ℚ) (cfg : Config) (ind : Fin P → ℕ)
    (x : Fin S → Fin P → ℚ) :
    satAll (set_constraints sn pm pn cfg ind) x ↔
      (∀ s p, pn s p = 0 → x s p = 0) ∧
      (∀ p, ∑ s, x s p ≤ cfg.slots_per_person_max) ∧
      (∀ s, cfg.persons_per_slot_min ≤ ∑ p, x s p ∧
        ∑ p, x s p ≤ cfg.persons_per_slot_max) ∧
      (∀ s, cfg.min_experienced_persons ≤ ∑ p, x s p * (ind p : ℚ)) := by
  unfold set_constraints
  rw [satAll_append, satAll_append, satAll_append, satAll_unavail_iff_mip,
    satAll_maxslots_iff_mip, satAll_coverage_iff_mip, satAll_experienced_iff_mip]
  tauto

end MIP

/-- C4: for every (slot, person) pair whose normalized preference is 0,
the built constraint set (of either backend) forces `assignment[s,p] = 0`:
every assignment matrix satisfying the built constraints has a 0 at every
such pair. -/
theorem C4_availability_forced {S P : ℕ} (sn : Fin S → String)
    (pm : Fin P → String) (pn : Fin S → Fin P → ℚ) (cfg : Config)
    (ind : Fin P → ℕ) (x : Fin S → Fin P → ℚ) :
    (satAll (GB.set_constraints sn pm pn cfg ind) x →
      ∀ s p, pn s p = 0 → x s p = 0) ∧
    (satAll (MIP.set_constraints sn pm pn cfg ind) x →
      ∀ s p, pn s p = 0 → x s p = 0) :=
  ⟨fun h => ((GB.satAll_set_constraints_iff_gb sn pm pn cfg ind x).mp h).1,
   fun h => ((MIP.satAll_set_constraints_iff_mip sn pm pn cfg ind x).mp h).1⟩

theorem C4_availability_forced_witness :
    satAll (GB.set_constraints snA pmA pnZ cfg0 ind0) xZ ∧ xZ 0 0 = 0 := by
  have hsat : satAll (GB.set_constraints snA pmA pnZ cfg0 ind0) xZ := by
    rw [GB.satAll_set_constraints_iff_gb]
    refine ⟨fun s p _ => rfl, fun p => ?_, fun s => ⟨?_, ?_⟩, fun s => ?_⟩ <;>
      simp [xZ, cfg0, ind0]
  exact ⟨hsat, (C4_availability_forced snA pmA pnZ cfg0 ind0 xZ).1 hsat 0 0 rfl⟩

/-- C5: every assignment matrix satisfying the built constraint set (of
either backend) obeys the person-capacity bound, the slot-coverage bounds
and the skill-mix bound. -/
theorem C5_capacity_coverage_skill {S P : ℕ} (sn : Fin S → String)
    (pm : Fin P → String) (pn : Fin S → Fin P → ℚ) (cfg : Config)
    (ind : Fin P → ℕ) (x : Fin S → Fin P → ℚ) :
    (satAll (GB.set_constraints sn pm pn cfg ind) x →
      (∀ p, ∑ s, x s p ≤ cfg.slots_per_person_max) ∧
      (∀ s, cfg.persons_per_slot_min ≤ ∑ p, x s p ∧
        ∑ p, x s p ≤ cfg.persons_per_slot_max) ∧
      (∀ s, cfg.min_experienced_persons ≤ ∑ p, x s p * (ind p : ℚ))) ∧
    (satAll (MIP.set_constraints sn pm pn cfg ind) x →
      (∀ p, ∑ s, x s p ≤ cfg.slots_per_person_max) ∧
      (∀ s, cfg.persons_per_slot_min ≤ ∑ p, x s p ∧
        ∑ p, x s p ≤ cfg.persons_per_slot_max) ∧
      (∀ s, cfg.min_experienced_persons ≤ ∑ p, x s p * (ind p : ℚ))) :=
  ⟨fun h => ((GB.satAll_set_constraints_iff_gb sn pm pn cfg ind x).mp h).2,
   fun h => ((MIP.satAll_set_constraints_iff_mip sn pm pn cfg ind x).mp h).2⟩

theorem C5_capacity_coverage_skill_witness :
    satAll (MIP.set_constraints snA pmA pnOne cfg1 ind1) xOne ∧
    (∀ p, ∑ s, xOne s p ≤ cfg1.slots_per_person_max) := by
  have hsat : satAll (MIP.set_constraints snA pmA pnOne cfg1 ind1) xOne := by
    rw [MIP.satAll_set_constraints_iff_mip]
    refine ⟨fun s p hz => absurd hz (by simp [pnOne]), fun p => ?_,
      fun s => ⟨?_, ?_⟩, fun s => ?_⟩ <;>
      simp [xOne, cfg1, ind1]
  exact ⟨hsat,
    ((C5_capacity_coverage_skill snA pmA pnOne cfg1 ind1 xOne).2 hsat).1⟩

/-- C6: the experience classifier sets `indicator[p] = 1` exactly when the
person's months strictly exceed the threshold; a person with months equal
to the threshold is classified inexperienced (indicator 0). -/
theorem C6_strict_threshold {P : ℕ} (months : Fin P → ℚ) (threshold : ℚ)
    (p : Fin P) :
    (exp_indicator months threshold p = 1 ↔ threshold < months p) ∧
    (months p = threshold → exp_indicator months threshold p = 0) := by
  constructor
  · by_cases h : months p > threshold
    · simp [exp_indicator, h]
    · simp [exp_indicator, h]
  · intro he
    simp [exp_indicator, he]

theorem C6_strict_threshold_witness :
    exp_indicator (fun _ : Fin 1 => (6 : ℚ)) 6 0 = 0 :=
  (C6_strict_threshold (fun _ : Fin 1 => (6 : ℚ)) 6 0).2 rfl

/-- C3: for a person whose raw column sum is positive, the normalized
column is proportional to the raw column and sums to the variant's fixed
constant: the slot count in `kdv_model.py`, 1 in `mipmod.py`. -/
theorem C3_normalized_column {S P : ℕ} (prefs : Fin S → Fin P → ℚ) (p : Fin P)
    (h : 0 < colSum prefs p) :
    (∑ s, GB.prefs_normed prefs s p) = S ∧
    (∑ s, MIP.prefs_normed prefs s p) = 1 ∧
    (∃ c : ℚ, ∀ s, GB.prefs_normed prefs s p = c * prefs s p) ∧
    (∃ c : ℚ, ∀ s, MIP.prefs_normed prefs s p = c * prefs s p) := by
  have hne : colSum prefs p ≠ 0 := ne_of_gt h
  refine ⟨?_, ?_,
    ⟨(S : ℚ) / colSum prefs p, fun s => by unfold GB.prefs_normed; ring⟩,
    ⟨1 / colSum prefs p, fun s => by unfold MIP.prefs_normed; ring⟩⟩
  · unfold GB.prefs_normed
    rw [← Finset.sum_mul, ← Finset.sum_div]
    show colSum prefs p / colSum prefs p * (S : ℚ) = S
    rw [div_self hne, one_mul]
  · unfold MIP.prefs_normed
    rw [← Finset.sum_div]
    show colSum prefs p / colSum prefs p = 1
    exact div_self hne

theorem C3_normalized_column_witness :
    0 < colSum prefs3 0 ∧
    ((∑ s, GB.prefs_normed prefs3 s 0) = ((2 : ℕ) : ℚ) ∧
     (∑ s, MIP.prefs_normed prefs3 s 0) = 1 ∧
     (∃ c : ℚ, ∀ s, GB.prefs_normed prefs3 s 0 = c * prefs3 s 0) ∧
     (∃ c : ℚ, ∀ s, MIP.prefs_normed prefs3 s 0 = c * prefs3 s 0)) := by
  have hpos : 0 < colSum prefs3 0 := by
    simp [colSum, prefs3, Fin.sum_univ_two]
  exact ⟨hpos, C3_normalized_column prefs3 0 hpos⟩

/-- C10: for the same raw inputs, the two backends' constraint sets define
the same feasible region — a cell's normalized preference is zero in one
variant exactly when it is zero in the other, and an assignment matrix
satisfies one backend's constraint set iff it satisfies the other's. -/
theorem C10_same_feasible_region {S P : ℕ} (sn : Fin S → String)
    (pm : Fin P → String) (prefs : Fin S → Fin P → ℚ) (cfg : Config)
    (ind : Fin P → ℕ) (x : Fin S → Fin P → ℚ) :
    (∀ s p, GB.prefs_normed prefs s p = 0 ↔ MIP.prefs_normed prefs s p = 0) ∧
    (satAll (GB.set_constraints sn pm (GB.prefs_normed prefs) cfg ind) x ↔
      satAll (MIP.set_constraints sn pm (MIP.prefs_normed prefs) cfg ind) x) := by
  have hz : ∀ (s : Fin S) (p : Fin P),
      GB.prefs_normed prefs s p = 0 ↔ MIP.prefs_normed prefs s p = 0 := by
    intro s p
    unfold GB.prefs_normed MIP.prefs_normed
    constructor
    · intro h
      rcases mul_eq_zero.mp h with h' | h'
      · exact h'
      · exact absurd (Nat.cast_eq_zero.mp h') (Nat.pos_iff_ne_zero.mp s.pos)
    · intro h
      rw [h, zero_mul]
  refine ⟨hz, ?_⟩
  rw [GB.satAll_set_constraints_iff_gb, MIP.satAll_set_constraints_iff_mip]
  exact and_congr
    (forall_congr' fun s => forall_congr' fun p => imp_congr (hz s p) Iff.rfl)
    Iff.rfl

/-- C1: the claim says the linear objective of `mipmod.py` equals the
quadratic objective of `kdv_model.py` on every normalized preference
matrix and binary assignment.  The code diverges: `mipmod.py` sums the raw
discrepancies (not the exact linear expansion of their squares), and at
the normalized matrix with single cell 1 (the normalization of a 1×1 raw
table) and the all-zero binary assignment the linear objective is −1 while
the quadratic objective is 1. -/
theorem C1_objective_divergence :
    (∀ s p, MIP.prefs_normed prefsC1 s p = pnC1 s p) ∧
    (∀ s p, xC1 s p = 0 ∨ xC1 s p = 1) ∧
    MIP.objective pnC1 xC1 = -1 ∧
    GB.objective pnC1 xC1 = 1 ∧
    MIP.objective pnC1 xC1 ≠ GB.objective pnC1 xC1 := by
  have hM : MIP.objective pnC1 xC1 = -1 := by
    simp [MIP.objective, pnC1, xC1, Fin.sum_univ_one]
  have hG : GB.objective pnC1 xC1 = 1 := by
    simp [GB.objective, pnC1, xC1, Fin.sum_univ_one]
  refine ⟨fun s p => ?_, fun s p => Or.inl rfl, hM, hG, ?_⟩
  · norm_num [MIP.prefs_normed, prefsC1, pnC1, colSum, Fin.sum_univ_one]
  · rw [hM, hG]
    norm_num

/-- C2 counterexample: on a raw table whose second person's column sums to
zero, neither backend raises `InvalidPreferenceData` — model construction
returns normally and the constraint set is still built (nonempty). -/
theorem C2_counterexample :
    colSum prefsC2 1 = 0 ∧
    GB.init snB pmB prefsC2 cfgC2 monthsC2 ≠
      Except.error KDVError.invalidPreferenceData ∧
    MIP.init snB pmB prefsC2 cfgC2 monthsC2 ≠
      Except.error KDVError.invalidPreferenceData ∧
    ∃ m : GB.Model 2 2, GB.init snB pmB prefsC2 cfgC2 monthsC2 = Except.ok m ∧
      m.constrs.length ≠ 0 := by
  refine ⟨?_, fun h => Except.noConfusion h, fun h => Except.noConfusion h,
    ⟨_, rfl, ?_⟩⟩
  · simp [colSum, prefsC2, Fin.sum_univ_two]
  · show (GB.set_constraints snB pmB (GB.prefs_normed prefsC2) cfgC2
      (exp_indicator monthsC2 cfgC2.experience_months)).length ≠ 0
    simp only [GB.set_constraints, List.length_append,
      GB.constr_slots_per_person, List.length_map, List.length_finRange]
    omega

/-- C2 amended: normalization performs no zero-column check — for every
raw preference table containing a person whose column sums to zero, model
construction in both backends still returns normally (no
`InvalidPreferenceData` failure, and the constraint builder is reached). -/
theorem C2_no_zero_column_check {S P : ℕ} (sn : Fin S → String)
    (pm : Fin P → String) (prefs : Fin S → Fin P → ℚ) (cfg : Config)
    (months : Fin P → ℚ) (h : ∃ p, colSum prefs p = 0) :
    (∃ mG, GB.init sn pm prefs cfg months = Except.ok mG) ∧
    (∃ mM, MIP.init sn pm prefs cfg months = Except.ok mM) :=
  ⟨⟨_, rfl⟩, ⟨_, rfl⟩⟩

theorem C2_no_zero_column_check_witness :
    (∃ p, colSum prefsC2 p = 0) ∧
    ((∃ mG, GB.init snB pmB prefsC2 cfgC2 monthsC2 = Except.ok mG) ∧
     (∃ mM, MIP.init snB pmB prefsC2 cfgC2 monthsC2 = Except.ok mM)) := by
  have hz : (∃ p, colSum prefsC2 p = 0) :=
    ⟨1, by simp [colSum, prefsC2, Fin.sum_univ_two]⟩
  exact ⟨hz, C2_no_zero_column_check snB pmB prefsC2 cfgC2 monthsC2 hz⟩

/-- C7 counterexample: on a state that is not SOLVED{OPTIMAL|FEASIBLE}
(CBC: status INFEASIBLE; Gurobi: `solcount = 0`), `slot_desirability` and
`person_flexibility` do not fail with `NotConverged` — they return values,
refuting the claim that all three evaluation operations fail. -/
theorem C7_counterexample :
    ¬ MIP.converged stM7 ∧
    MIP.slot_desirability stM7 ≠ Except.error KDVError.notConverged ∧
    MIP.person_flexibility stM7 ≠ Except.error KDVError.notConverged ∧
    ¬ GB.converged stG7 ∧
    GB.slot_desirability stG7 ≠ Except.error KDVError.notConverged ∧
    GB.person_flexibility stG7 ≠ Except.error KDVError.notConverged :=
  ⟨by decide, fun h => Except.noConfusion h, fun h => Except.noConfusion h,
   by decide, fun h => Except.noConfusion h, fun h => Except.noConfusion h⟩

/-- C7 amended: of the three evaluation operations, only the schedule
extraction guards convergence: on every state that is not
SOLVED{OPTIMAL|FEASIBLE}, `slot_schedule` fails with `NotConverged` in
both backends, while `slot_desirability` and `person_flexibility` return
values computed from the normalized preferences alone. -/
theorem C7_only_schedule_guarded {S P : ℕ} (stM : MIP.State S P)
    (stG : GB.State S P) (hM : ¬ MIP.converged stM) (hG : ¬ GB.converged stG) :
    MIP.slot_schedule stM = Except.error KDVError.notConverged ∧
    GB.slot_schedule stG = Except.error KDVError.notConverged ∧
    (∃ d, MIP.slot_desirability stM = Except.ok d) ∧
    (∃ f, MIP.person_flexibility stM = Except.ok f) ∧
    (∃ d, GB.slot_desirability stG = Except.ok d) ∧
    (∃ f, GB.person_flexibility stG = Except.ok f) := by
  refine ⟨?_, ?_, ⟨_, rfl⟩, ⟨_, rfl⟩, ⟨_, rfl⟩, ⟨_, rfl⟩⟩
  · unfold MIP.slot_schedule
    rw [if_neg hM]
  · unfold GB.slot_schedule
    rw [if_neg hG]

theorem C7_only_schedule_guarded_witness :
    (¬ MIP.converged stM7 ∧ ¬ GB.converged stG7) ∧
    (MIP.slot_schedule stM7 = Except.error KDVError.notConverged ∧
     GB.slot_schedule stG7 = Except.error KDVError.notConverged ∧
     (∃ d, MIP.slot_desirability stM7 = Except.ok d) ∧
     (∃ f, MIP.person_flexibility stM7 = Except.ok f) ∧
     (∃ d, GB.slot_desirability stG7 = Except.ok d) ∧
     (∃ f, GB.person_flexibility stG7 = Except.ok f)) :=
  ⟨⟨by decide, by decide⟩,
   C7_only_schedule_guarded stM7 stG7 (by decide) (by decide)⟩

/-- C8 counterexample: on a solved state whose normalized preference
column has maximum zero, `person_flexibility` does not fail with
`InvalidPreferenceData` in either backend — there is no defensive
re-guard; the call returns. -/
theorem C8_counterexample :
    colMax stM8.prefs_normed 0 = 0 ∧
    MIP.person_flexibility stM8 ≠
      Except.error KDVError.invalidPreferenceData ∧
    colMax stG8.prefs_normed 0 = 0 ∧
    GB.person_flexibility stG8 ≠
      Except.error KDVError.invalidPreferenceData := by
  have hmax : ∀ pn : Fin 1 → Fin 1 → ℚ, (∀ s p, pn s p = 0) → colMax pn 0 = 0 := by
    intro pn hpn
    unfold colMax
    rw [dif_neg one_ne_zero]
    simp [hpn, Finset.sup'_const]
  exact ⟨hmax _ (fun _ _ => rfl), fun h => Except.noConfusion h,
    hmax _ (fun _ _ => rfl), fun h => Except.noConfusion h⟩

/-- C8 amended: `person_flexibility` has no guard at all — on every state,
including those containing a person whose normalized column maximum is
zero, it returns the reciprocal table rather than failing. -/
theorem C8_no_reguard {S P : ℕ} (stM : MIP.State S P) (stG : GB.State S P)
    (hM : ∃ p, colMax stM.prefs_normed p = 0)
    (hG : ∃ p, colMax stG.prefs_normed p = 0) :
    (∃ f, MIP.person_flexibility stM = Except.ok f) ∧
    (∃ f, GB.person_flexibility stG = Except.ok f) :=
  ⟨⟨_, rfl⟩, ⟨_, rfl⟩⟩

theorem C8_no_reguard_witness :
    ((∃ p, colMax stM8.prefs_normed p = 0) ∧
     (∃ p, colMax stG8.prefs_normed p = 0)) ∧
    ((∃ f, MIP.person_flexibility stM8 = Except.ok f) ∧
     (∃ f, GB.person_flexibility stG8 = Except.ok f)) := by
  have hmax : ∀ pn : Fin 1 → Fin 1 → ℚ, (∀ s p, pn s p = 0) → colMax pn 0 = 0 := by
    intro pn hpn
    unfold colMax
    rw [dif_neg one_ne_zero]
    simp [hpn, Finset.sup'_const]
  exact ⟨⟨⟨0, hmax _ (fun _ _ => rfl)⟩, ⟨0, hmax _ (fun _ _ => rfl)⟩⟩,
    C8_no_reguard stM8 stG8 ⟨0, hmax _ (fun _ _ => rfl)⟩
      ⟨0, hmax _ (fun _ _ => rfl)⟩⟩

/-- C9 counterexample: a preference table whose available cells all hold
the same positive value 1 but which has one unavailable (zero) cell does
not give desirability 1 everywhere — slot 0's desirability is 3/2 in both
normalization variants. -/
theorem C9_counterexample :
    (∀ s p, prefsC9 s p = 0 ∨ prefsC9 s p = 1) ∧ (0 : ℚ) < 1 ∧
    GB.desirability_of (GB.prefs_normed prefsC9) 0 ≠ 1 ∧
    MIP.desirability_of (MIP.prefs_normed prefsC9) 0 ≠ 1 := by
  refine ⟨?_, by norm_num, ?_, ?_⟩
  · intro s p
    fin_cases s <;> fin_cases p <;> simp [prefsC9]
  · norm_num [GB.desirability_of, GB.prefs_normed, prefsC9, colSum,
      Fin.sum_univ_two]
  · norm_num [MIP.desirability_of, MIP.prefs_normed, prefsC9, colSum,
      Fin.sum_univ_two]

/-- C9 amended: on a fully uniform preference table (every cell — not
just every available cell — holds the same positive value) with at least
one slot and one person, desirability is exactly 1 for every slot in both
normalization variants. -/
theorem C9_uniform_desirability {S P : ℕ} (prefs : Fin S → Fin P → ℚ)
    (c : ℚ) (hP : 0 < P) (hc : 0 < c) (hu : ∀ s p, prefs s p = c) (s : Fin S) :
    GB.desirability_of (GB.prefs_normed prefs) s = 1 ∧
    MIP.desirability_of (MIP.prefs_normed prefs) s = 1 := by
  have hS : 0 < S := s.pos
  have hSne : (S : ℚ) ≠ 0 := Nat.cast_ne_zero.mpr (Nat.pos_iff_ne_zero.mp hS)
  have hPne : (P : ℚ) ≠ 0 := Nat.cast_ne_zero.mpr (Nat.pos_iff_ne_zero.mp hP)
  have hcs : ∀ p, colSum prefs p = S * c := by
    intro p
    unfold colSum
    simp [hu, Finset.sum_const, Finset.card_univ, nsmul_eq_mul]
  have hcne : c ≠ 0 := ne_of_gt hc
  have hG : ∀ (s : Fin S) (p : Fin P), GB.prefs_normed prefs s p = 1 := by
    intro s p
    unfold GB.prefs_normed
    rw [hu, hcs]
    field_simp
    ring
  have hM : ∀ (s : Fin S) (p : Fin P), MIP.prefs_normed prefs s p = 1 / S := by
    intro s p
    unfold MIP.prefs_normed
    rw [hu, hcs]
    field_simp
    ring
  constructor
  · unfold GB.desirability_of
    simp [hG, Finset.sum_const, Finset.card_univ, nsmul_eq_mul]
    exact div_self hPne
  · unfold MIP.desirability_of
    simp [hM, Finset.sum_const, Finset.card_univ, nsmul_eq_mul]
    field_simp
    ring

theorem C9_uniform_desirability_witness :
    (0 < 1 ∧ (0 : ℚ) < 2 ∧ (∀ s p : Fin 1, prefsC9u s p = 2)) ∧
    (GB.desirability_of (GB.prefs_normed prefsC9u) 0 = 1 ∧
     MIP.desirability_of (MIP.prefs_normed prefsC9u) 0 = 1) :=
  ⟨⟨Nat.one_pos, by norm_num, fun _ _ => rfl⟩,
   C9_uniform_desirability prefsC9u 2 Nat.one_pos (by norm_num)
     (fun _ _ => rfl) 0⟩
